import Mathlib

/-
Verification of the digital-twin anomaly/metrics engine against its
natural-language specification.

Shallow embedding conventions:
* Sensor values and timestamps are rationals (`ℚ`).  An ISO-8601 timestamp is
  modelled by its parsed instant expressed in minutes, so a difference of
  timestamps is a number of minutes (the Python code divides second
  differences by 60 or 3600; here the minute scale is built in and a division
  by 60 converts minutes to hours).
* Readings are `{sensor, timestamp, value}` records exactly as produced by the
  external store (`storage.fetch_all()`), passed explicitly.
* Python floats are modelled exactly by `ℚ`; `round(x, 2)` is round half to
  even at two decimals (`pyRound2`).
-/

namespace DigitalTwin

/-- A sensor reading `{sensor, timestamp, value}` (see `storage.fetch_all`). -/
structure Reading where
  sensor : String
  timestamp : ℚ
  value : ℚ
deriving Repr, DecidableEq

/-- A static anomaly event as built by `detect_anomalies` / `get_anomalies`
(`src/anomalies.py`, `src/anomalies_endpoints.py`).  The human-readable
`detail` message, a formatted string of the threshold constants, is omitted. -/
structure StaticEvent where
  sensor : String
  timestamp : ℚ
  value : ℚ
  type : String
deriving Repr, DecidableEq

/-- Threshold configuration read from `src/settings.py` by the static
detector. -/
structure Config where
  setpoint : ℚ
  tmpTolerance : ℚ
  flowInactivityThreshold : ℚ
  flowInactivityMinutes : ℕ
  levelLowThreshold : ℚ
  powerHighThreshold : ℚ
deriving Repr, DecidableEq

/-- The constants of `src/settings.py` as used by `src/anomalies.py`
(`temperature_setpoint = 25.0`, `TMP_TOLERANCE = 2.0`,
`FLOW_INACTIVITY_THRESHOLD = 0.001`, `FLOW_INACTIVITY_MINUTES = 5`,
`LEVEL_LOW_THRESHOLD = 0.2`, `POWER_HIGH_THRESHOLD = 0.04`). -/
def settingsConfig : Config :=
  { setpoint := 25
    tmpTolerance := 2
    flowInactivityThreshold := 1/1000
    flowInactivityMinutes := 5
    levelLowThreshold := 1/5
    powerHighThreshold := 1/25 }

/-- The endpoint variant `src/anomalies_endpoints.py::get_anomalies` uses
`SETPOINT_TEMP_DEFAULT = 60.0` instead of `temperature_setpoint`; all other
constants coincide. -/
def endpointConfig : Config :=
  { settingsConfig with setpoint := 60 }

/-- `value ≤ FLOW_INACTIVITY_THRESHOLD`: a flow reading qualifying as
inactive. -/
def lowFlow (cfg : Config) (v : ℚ) : Bool :=
  decide (v ≤ cfg.flowInactivityThreshold)

/-- Build an anomaly record from a reading, as the Python dict literals do. -/
def mkEvent (r : Reading) (t : String) : StaticEvent :=
  { sensor := r.sensor, timestamp := r.timestamp, value := r.value, type := t }

/-- The loop body of `detect_anomalies` (`src/anomalies.py` lines 21-59):
scan the readings in order carrying the `flow_zero_count` counter, emitting
events in the order they are appended. -/
def detectAux (cfg : Config) : ℕ → List Reading → List StaticEvent
  | _, [] => []
  | count, r :: rs =>
    if r.sensor = "temperature" then
      (if cfg.tmpTolerance < |r.value - cfg.setpoint| then [mkEvent r "Overtemperature"] else [])
        ++ detectAux cfg count rs
    else if r.sensor = "flow" then
      let count' := if lowFlow cfg r.value then count + 1 else 0
      (if cfg.flowInactivityMinutes ≤ count' then [mkEvent r "Inactivity"] else [])
        ++ detectAux cfg count' rs
    else if r.sensor = "level" then
      (if r.value < cfg.levelLowThreshold then [mkEvent r "LowLevel"] else [])
        ++ detectAux cfg count rs
    else if r.sensor = "power" then
      (if cfg.powerHighThreshold < r.value then [mkEvent r "HighPower"] else [])
        ++ detectAux cfg count rs
    else
      detectAux cfg count rs

/-- `detect_anomalies` (`src/anomalies.py`): the counter starts at 0. -/
def detectAnomalies (cfg : Config) (rs : List Reading) : List StaticEvent :=
  detectAux cfg 0 rs

/-- Spec-side counter: the number of consecutive qualifying (low) flow values
at the end of the list of flow values seen so far, i.e. the length of the
longest all-low suffix. -/
def trailingLow (cfg : Config) (vs : List ℚ) : ℕ :=
  (vs.reverse.takeWhile (lowFlow cfg)).length

/-- Spec-side description of the Inactivity rule: walking over the readings
with the list `pvals` of flow values already seen, a flow reading emits an
Inactivity event exactly when the consecutive-low count including it has
reached `inactivity_minutes`. -/
def inactivitySpecAux (cfg : Config) : List ℚ → List Reading → List StaticEvent
  | _, [] => []
  | pvals, r :: rs =>
    if r.sensor = "flow" then
      (if cfg.flowInactivityMinutes ≤ trailingLow cfg (pvals ++ [r.value]) then
        [mkEvent r "Inactivity"] else [])
        ++ inactivitySpecAux cfg (pvals ++ [r.value]) rs
    else
      inactivitySpecAux cfg pvals rs

/-- Spec-side Inactivity events of a reading sequence. -/
def inactivitySpec (cfg : Config) (rs : List Reading) : List StaticEvent :=
  inactivitySpecAux cfg [] rs

/-- Spec-side Overtemperature events: one per temperature reading outside the
tolerance band, in reading order. -/
def overtempSpec (cfg : Config) (rs : List Reading) : List StaticEvent :=
  (rs.filter (fun r => r.sensor == "temperature"
      && decide (cfg.tmpTolerance < |r.value - cfg.setpoint|))).map
    (fun r => mkEvent r "Overtemperature")

/-! ## Adaptive statistical detector (`src/anomalies_endpoints.py::adaptive_anomalies`) -/

/-- Arithmetic mean of a list (`pandas.Series.mean`); 0 on the empty list. -/
def listMean (xs : List ℚ) : ℚ :=
  xs.sum / xs.length

/-- Sample variance with `ddof = 1` (square of `pandas` rolling `std`);
0 when fewer than two samples (those positions are handled separately). -/
def sampleVar (xs : List ℚ) : ℚ :=
  if xs.length ≤ 1 then 0
  else (xs.map (fun x => (x - listMean xs) ^ 2)).sum / ((xs.length : ℚ) - 1)

/-- The trailing window of at most `w` values ending at position `i`
(`pandas.Series.rolling(window=w)`). -/
def windowSlice (vs : List ℚ) (w i : ℕ) : List ℚ :=
  (vs.take (i + 1)).drop (i + 1 - w)

/-- Number of observations in the trailing window at position `i`. -/
def windowCount (w i : ℕ) : ℕ :=
  min (i + 1) w

/-- `min_periods = window // 2` of the rolling statistics. -/
def minPeriods (w : ℕ) : ℕ :=
  w / 2

/-- The rolling mean at position `i` is defined (not NaN) iff the window holds
at least `min_periods` observations (and at least one, which is automatic). -/
def meanDefined (w i : ℕ) : Bool :=
  decide (max (minPeriods w) 1 ≤ windowCount w i)

/-- The rolling sample std at position `i` is defined (not NaN) iff the window
holds at least `min_periods` observations and at least two (ddof = 1). -/
def stdDefined (w i : ℕ) : Bool :=
  decide (max (minPeriods w) 2 ≤ windowCount w i)

/-- `min_std = sensor_df['value'].mean() * 0.01`: 1% of the sensor's overall
mean, substituted for a zero (or undefined, after `fillna(0)`) rolling std. -/
def minStd (vs : List ℚ) : ℚ :=
  listMean vs / 100

/-- Square of the effective z-score denominator at position `i`: the code's
`std` column after `.fillna(0)` and `.replace(0, min_std)`.  The code's
denominator is the square root of this value; in particular it is exactly zero
iff this value is exactly zero, and comparisons of `|z|` against a threshold
are comparisons of squares against this value. -/
def effectiveStdSq (vs : List ℚ) (w i : ℕ) : ℚ :=
  if stdDefined w i ∧ sampleVar (windowSlice vs w i) ≠ 0 then
    sampleVar (windowSlice vs w i)
  else
    minStd vs ^ 2

/-- `Z_THRESHOLD = 1.5` (`src/anomalies_endpoints.py` line 13), squared. -/
def zThresholdSq : ℚ := 9/4

/-- Whether position `i` of a sensor series is flagged: the rolling mean must
be defined, and `|z| > Z_THRESHOLD`.  When the effective denominator is zero
the float z-score is `±inf` (flagged) for `value ≠ mean` and NaN (not
flagged) for `value = mean`. -/
def flaggedAt (vs : List ℚ) (w i : ℕ) : Bool :=
  meanDefined w i &&
    (let m := listMean (windowSlice vs w i)
     let v := vs.getD i 0
     let e := effectiveStdSq vs w i
     if e = 0 then decide (v ≠ m) else decide (zThresholdSq * e < (v - m) ^ 2))

/-- An adaptive anomaly record `{sensor, timestamp, value, mean, std, z}`.
Since the sample std and the z-score are square roots of rationals, the
embedding carries their squares: the code's `std` is `√stdSq` and its `z`
satisfies `z² = zSq` with the sign of `value - mean`. -/
structure AdAnomaly where
  sensor : String
  timestamp : ℚ
  value : ℚ
  mean : ℚ
  stdSq : ℚ
  zSq : ℚ
deriving Repr, DecidableEq

/-- The flagged rows of one sensor's (timestamp-sorted) sub-series, in order. -/
def sensorEvents (s : String) (g : List Reading) (w : ℕ) : List AdAnomaly :=
  let vs := g.map (fun r => r.value)
  (List.range g.length).filterMap fun i =>
    if flaggedAt vs w i then
      some { sensor := s
             timestamp := (g.getD i ⟨"", 0, 0⟩).timestamp
             value := vs.getD i 0
             mean := listMean (windowSlice vs w i)
             stdSq := effectiveStdSq vs w i
             zSq := (vs.getD i 0 - listMean (windowSlice vs w i)) ^ 2 / effectiveStdSq vs w i }
    else none

instance : DecidableRel (fun a b : Reading => a.timestamp ≤ b.timestamp) :=
  fun a b => inferInstanceAs (Decidable (a.timestamp ≤ b.timestamp))

/-- `df.sort_values('timestamp')`. -/
def sortByTimestamp (rs : List Reading) : List Reading :=
  List.insertionSort (fun a b => a.timestamp ≤ b.timestamp) rs

/-- `adaptive_anomalies` (`src/anomalies_endpoints.py` lines 82-146): with no
readings it raises `HTTPException(404, "No readings available")`, modelled as
`Except.error`; otherwise it sorts by timestamp, applies the optional sensor
filter (returning `[]` if nothing is left), and runs the per-sensor rolling
z-score detection on each sensor's sub-series. -/
def adaptiveAnomalies (readings : List Reading) (sensorF : Option String) (w : ℕ) :
    Except String (List AdAnomaly) :=
  if readings.isEmpty then
    .error "No readings available"
  else
    let df := sortByTimestamp readings
    let df := match sensorF with
      | some s => df.filter (fun (r : Reading) => r.sensor == s)
      | none => df
    if df.isEmpty then
      .ok []
    else
      .ok ((df.map (fun (r : Reading) => r.sensor)).dedup.flatMap fun s =>
        sensorEvents s (df.filter (fun (r : Reading) => r.sensor == s)) w)

/-- The FastAPI `window` parameter of the `/anomalies/adaptive` endpoint:
`Query(20, ge=5)` — default 20, values below 5 rejected before the handler
runs (`src/anomalies_endpoints.py` line 84). -/
def adaptiveWindowDefault : ℕ := 20

/-- Whether a requested adaptive window passes the endpoint's `ge=5`
validation. -/
def adaptiveWindowAccepted (w : ℤ) : Bool :=
  decide (5 ≤ w)

/-! ## Anomaly classifier (`classify_anomalies`, `src/anomalies_endpoints.py`
lines 148-168 and `src/metrics_endpoints.py` lines 17-33) -/

/-- The classification rule applied to one adaptive anomaly. -/
def classifyType (a : AdAnomaly) : String :=
  if a.sensor == "flow" && decide (a.mean < a.value) then "leakage"
  else if a.sensor == "temperature" && decide (5 < |a.value - a.mean|) then "sensor_error"
  else if a.sensor == "power" && decide (a.mean < a.value) then "overuse"
  else "other"

/-- A classified anomaly: the input record `{**a, ...}` plus the `type`
field. -/
structure ClassifiedAnomaly extends AdAnomaly where
  type : String
deriving Repr, DecidableEq

/-- The classification loop: one output `{**a, 'type': typ}` per input, in
order. -/
def classifyAnomalies (l : List AdAnomaly) : List ClassifiedAnomaly :=
  l.map fun a => { toAdAnomaly := a, type := classifyType a }

/-! ## Metrics (`src/metrics_endpoints.py`) -/

/-- Python's `round` to an integer: round half to even. -/
def roundHalfEven (q : ℚ) : ℤ :=
  let f := ⌊q⌋
  if q - f < 1/2 then f
  else if 1/2 < q - f then f + 1
  else if f % 2 = 0 then f else f + 1

/-- Python's `round(x, 2)`. -/
def pyRound2 (q : ℚ) : ℚ :=
  (roundHalfEven (q * 100) : ℚ) / 100

/-- The core of a metric response: its `value` and its `samples` count (the
remaining fields of `format_metric_response` are static metadata). -/
structure MetricValue where
  value : ℚ
  samples : ℕ
deriving Repr, DecidableEq

/-- Differences of consecutive elements of a list. -/
def consecDiffs : List ℚ → List ℚ
  | a :: b :: t => (b - a) :: consecDiffs (b :: t)
  | _ => []

/-- `statistics.mean`; 0 on the empty list (the code never takes a mean of an
empty list). -/
def meanQ (l : List ℚ) : ℚ :=
  l.sum / l.length

/-- Minimum of a list of rationals (0 for the empty list, never used there). -/
def qlistMin : List ℚ → ℚ
  | [] => 0
  | x :: xs => xs.foldl min x

/-- Maximum of a list of rationals (0 for the empty list, never used there). -/
def qlistMax : List ℚ → ℚ
  | [] => 0
  | x :: xs => xs.foldl max x

/-- The sorted list of distinct timestamps (`sorted(...)` over the timestamp
dictionary keys in `get_mtba`). -/
def uniqueSorted (l : List ℚ) : List ℚ :=
  List.insertionSort (· ≤ ·) l.dedup

/-- `get_mtba` (`src/metrics_endpoints.py` lines 717-850), value and sample
count: anomalies are grouped by timestamp, the mean of the minute gaps
between consecutive distinct sorted timestamps is rounded to two decimals,
and fewer than two anomalies or fewer than two distinct timestamps give 0. -/
def getMtba (anoms : List AdAnomaly) : MetricValue :=
  if anoms.isEmpty then ⟨0, 0⟩
  else if anoms.length < 2 then ⟨0, anoms.length⟩
  else
    let uts := uniqueSorted (anoms.map fun a => a.timestamp)
    if uts.length < 2 then ⟨0, anoms.length⟩
    else ⟨pyRound2 (meanQ (consecDiffs uts)), anoms.length⟩

/-- Spec-side MTBA value: with `d` distinct timestamps, `d < 2` gives 0 and
otherwise the mean gap telescopes to (max − min)/(d − 1) minutes, rounded to
two decimals. -/
def mtbaSpecValue (anoms : List AdAnomaly) : ℚ :=
  let ts := anoms.map fun a => a.timestamp
  if ts.dedup.length < 2 then 0
  else pyRound2 ((qlistMax ts - qlistMin ts) / ((ts.dedup.length : ℚ) - 1))

/-- Whether a timestamp lies in the optional inclusive `[start, end]` window
(the `in_range` helpers of `src/metrics_endpoints.py`). -/
def inRange (s e : Option ℚ) (t : ℚ) : Bool :=
  (match s with | some sv => decide (sv ≤ t) | none => true) &&
  (match e with | some ev => decide (t ≤ ev) | none => true)

/-- The static-failure test of `get_mtbf` / `get_failures_count`
(`src/metrics_endpoints.py` lines 1295-1322): per-reading threshold rules
with `SETPOINT_TEMP_DEFAULT = 60`, `TMP_TOLERANCE = 2`,
`FLOW_INACTIVITY_THRESHOLD = 0.001`, `LEVEL_LOW_THRESHOLD = 0.2`,
`POWER_HIGH_THRESHOLD = 0.04`. -/
def isStaticFailure (r : Reading) : Bool :=
  (r.sensor == "temperature" && decide ((2 : ℚ) < |r.value - 60|)) ||
  (r.sensor == "flow" && decide (r.value ≤ (1/1000 : ℚ))) ||
  (r.sensor == "level" && decide (r.value < (1/5 : ℚ))) ||
  (r.sensor == "power" && decide ((1/25 : ℚ) < r.value))

/-- The `fail_ts` list of `get_mtbf`: timestamps of in-range readings
violating a static rule, in reading order (possibly with duplicates). -/
def failTimestamps (rs : List Reading) (s e : Option ℚ) : List ℚ :=
  (rs.filter fun r => inRange s e r.timestamp && isStaticFailure r).map
    fun r => r.timestamp

/-- `get_mtbf` (`src/metrics_endpoints.py` lines 1255-1432), value and sample
count: fewer than two failures give 0, otherwise the mean of the hour gaps
between consecutive sorted failure timestamps, rounded to two decimals. -/
def getMtbf (rs : List Reading) (s e : Option ℚ) : MetricValue :=
  let fts := failTimestamps rs s e
  if fts.length < 2 then ⟨0, fts.length⟩
  else
    let times := List.insertionSort (· ≤ ·) fts
    ⟨pyRound2 (meanQ ((consecDiffs times).map fun d => d / 60)), fts.length⟩

/-- Spec-side MTBF value: with `n` failure timestamps, `n < 2` gives 0 and
otherwise the mean hour gap telescopes to ((max − min)/60)/(n − 1), rounded
to two decimals. -/
def mtbfSpecValue (rs : List Reading) (s e : Option ℚ) : ℚ :=
  let fts := failTimestamps rs s e
  if fts.length < 2 then 0
  else pyRound2 ((qlistMax fts - qlistMin fts) / 60 / ((fts.length : ℚ) - 1))

/-- `get_availability` (`src/metrics_endpoints.py` lines 78-186), value and
sample count: flow readings filtered by the optional inclusive bounds; zero
samples give value 0, otherwise the rounded percentage with `value > 0`.
There is no `start > end` check: contradictory bounds simply leave no
samples. -/
def getAvailability (rs : List Reading) (s e : Option ℚ) : MetricValue :=
  let flow := rs.filter fun r => r.sensor == "flow"
  let flow := match s with
    | some sv => flow.filter fun (r : Reading) => decide (sv ≤ r.timestamp)
    | none => flow
  let flow := match e with
    | some ev => flow.filter fun (r : Reading) => decide (r.timestamp ≤ ev)
    | none => flow
  if flow.length = 0 then ⟨0, 0⟩
  else
    ⟨pyRound2 (((flow.filter fun (r : Reading) => decide ((0 : ℚ) < r.value)).length : ℚ)
        / (flow.length : ℚ) * 100),
     flow.length⟩

/-- `get_quality` (`src/metrics_endpoints.py` lines 321-467), value and
sample count, modelled up to the HTTP error on `start > end`
(`Except.error`; the message string stands for the 400 response).  With no
temperature readings it returns 0 *before* the bound check; bounds default to
the data extent; `SETPOINT_TEMP_DEFAULT = 60`, half band
`TEMPERATURE_VARIATION/2 = 2.5`. -/
def getQuality (rs : List Reading) (s e : Option ℚ) : Except String MetricValue :=
  let tempLogs := rs.filter fun (r : Reading) => r.sensor == "temperature"
  if tempLogs.isEmpty then .ok ⟨0, 0⟩
  else
    let startDt := s.getD (qlistMin (tempLogs.map fun (r : Reading) => r.timestamp))
    let endDt := e.getD (qlistMax (tempLogs.map fun (r : Reading) => r.timestamp))
    if endDt < startDt then .error "start must be <= end"
    else
      let wlogs := tempLogs.filter fun r =>
        decide (startDt ≤ r.timestamp) && decide (r.timestamp ≤ endDt)
      if wlogs.length = 0 then .ok ⟨0, 0⟩
      else
        .ok ⟨pyRound2 (((wlogs.filter fun r => decide (|r.value - 60| ≤ (5/2 : ℚ))).length : ℚ)
            / (wlogs.length : ℚ) * 100),
          wlogs.length⟩

/-- `get_thermal_variation` (`src/metrics_endpoints.py` lines 533-614), value
and sample count: temperature readings filtered by the optional inclusive
bounds; fewer than two samples give value 0 with the sample count, otherwise
the code reports `round(statistics.stdev(temps), 2)`.  Since that sample
standard deviation is the square root of a rational, the embedding carries
the sample variance in the value field: the code's value is `pyRound2` of its
square root, which is zero iff this value is zero.  There is no
`start > end` check: contradictory bounds simply leave no samples. -/
def getThermalVariation (rs : List Reading) (s e : Option ℚ) : MetricValue :=
  let temps := rs.filter fun (r : Reading) => r.sensor == "temperature"
  let temps := match s with
    | some sv => temps.filter fun (r : Reading) => decide (sv ≤ r.timestamp)
    | none => temps
  let temps := match e with
    | some ev => temps.filter fun (r : Reading) => decide (r.timestamp ≤ ev)
    | none => temps
  let vals := temps.map fun (r : Reading) => r.value
  if vals.length < 2 then ⟨0, vals.length⟩
  else ⟨sampleVar vals, vals.length⟩

/-! ## Lemmas on the static detector -/

theorem trailingLow_append (cfg : Config) (vs : List ℚ) (v : ℚ) :
    trailingLow cfg (vs ++ [v]) = if lowFlow cfg v then trailingLow cfg vs + 1 else 0 := by
  simp only [trailingLow, List.reverse_append, List.reverse_cons, List.reverse_nil,
    List.nil_append, List.singleton_append, List.takeWhile_cons]
  cases h : lowFlow cfg v <;> simp [h]

theorem detectAux_filter_inactivity (cfg : Config) (rs : List Reading) :
    ∀ pvals : List ℚ,
      List.filter (fun e => e.type == "Inactivity") (detectAux cfg (trailingLow cfg pvals) rs)
        = inactivitySpecAux cfg pvals rs := by
  induction rs with
  | nil => intro pvals; rfl
  | cons r rs ih =>
    intro pvals
    by_cases ht : r.sensor = "temperature"
    · simp [detectAux, inactivitySpecAux, ht, List.filter_append, mkEvent, ih pvals,
        apply_ite (List.filter (fun e : StaticEvent => e.type == "Inactivity"))]
    · by_cases hf : r.sensor = "flow"
      · have hcount : (if lowFlow cfg r.value then trailingLow cfg pvals + 1 else 0)
            = trailingLow cfg (pvals ++ [r.value]) := (trailingLow_append cfg pvals r.value).symm
        simp [detectAux, inactivitySpecAux, ht, hf, hcount, List.filter_append, mkEvent,
          ih (pvals ++ [r.value]),
          apply_ite (List.filter (fun e : StaticEvent => e.type == "Inactivity"))]
      · by_cases hl : r.sensor = "level"
        · simp [detectAux, inactivitySpecAux, ht, hf, hl, List.filter_append, mkEvent,
            ih pvals, apply_ite (List.filter (fun e : StaticEvent => e.type == "Inactivity"))]
        · by_cases hp : r.sensor = "power"
          · simp [detectAux, inactivitySpecAux, ht, hf, hl, hp, List.filter_append, mkEvent,
              ih pvals,
              apply_ite (List.filter (fun e : StaticEvent => e.type == "Inactivity"))]
          · simp [detectAux, inactivitySpecAux, ht, hf, hl, hp, ih pvals]

theorem detectAux_filter_overtemp (cfg : Config) (rs : List Reading) :
    ∀ count : ℕ,
      List.filter (fun e => e.type == "Overtemperature") (detectAux cfg count rs)
        = overtempSpec cfg rs := by
  induction rs with
  | nil => intro count; rfl
  | cons r rs ih =>
    intro count
    by_cases ht : r.sensor = "temperature"
    · by_cases hd : cfg.tmpTolerance < |r.value - cfg.setpoint|
      · simp [detectAux, overtempSpec, ht, hd, List.filter_cons, mkEvent, ih count]
      · simp [detectAux, overtempSpec, ht, hd, List.filter_cons, mkEvent, ih count]
    · by_cases hf : r.sensor = "flow"
      · simp [detectAux, overtempSpec, ht, hf, List.filter_append, List.filter_cons, mkEvent,
          ih, apply_ite (List.filter (fun e : StaticEvent => e.type == "Overtemperature"))]
      · by_cases hl : r.sensor = "level"
        · simp [detectAux, overtempSpec, ht, hf, hl, List.filter_append, List.filter_cons,
            mkEvent, ih count,
            apply_ite (List.filter (fun e : StaticEvent => e.type == "Overtemperature"))]
        · by_cases hp : r.sensor = "power"
          · simp [detectAux, overtempSpec, ht, hf, hl, hp, List.filter_append,
              List.filter_cons, mkEvent, ih count,
              apply_ite (List.filter (fun e : StaticEvent => e.type == "Overtemperature"))]
          · simp [detectAux, overtempSpec, ht, hf, hl, hp, ih count]

/-! ## Claim theorems: static detector -/

/-- C1: for every configuration and reading sequence, the static detector's
Inactivity events are exactly described by the consecutive-low-flow counter:
the counter is the length of the trailing run of flow readings with
`value ≤ inactivity_threshold` (so it resets to 0 on any flow reading above
the threshold), no Inactivity event is emitted while it is below
`inactivity_minutes`, one is emitted for the reading at which it reaches
`inactivity_minutes`, and one for every subsequent consecutive qualifying low
reading. -/
theorem c1_inactivity_repeat_fire (cfg : Config) (rs : List Reading) :
    List.filter (fun e => e.type == "Inactivity") (detectAnomalies cfg rs)
      = inactivitySpec cfg rs := by
  have h := detectAux_filter_inactivity cfg rs []
  simpa [detectAnomalies, inactivitySpec, trailingLow] using h

/-- C3: a temperature reading is flagged Overtemperature iff
`|value − setpoint| > tolerance` (the Overtemperature events are exactly the
out-of-band temperature readings, in order), and on the reading sequence
`[25,25,25,40]` with setpoint 25 and tolerance 2 the static detector emits
exactly one anomaly: an Overtemperature event at the value-40 reading. -/
theorem c3_overtemperature_rule :
    (∀ (cfg : Config) (rs : List Reading),
      List.filter (fun e => e.type == "Overtemperature") (detectAnomalies cfg rs)
        = overtempSpec cfg rs)
    ∧ detectAnomalies settingsConfig
        [⟨"temperature", 0, 25⟩, ⟨"temperature", 1, 25⟩,
         ⟨"temperature", 2, 25⟩, ⟨"temperature", 3, 40⟩]
      = [⟨"temperature", 3, 40, "Overtemperature"⟩] := by
  refine ⟨fun cfg rs => detectAux_filter_overtemp cfg rs 0, ?_⟩
  norm_num [detectAnomalies, detectAux, settingsConfig, mkEvent]

/-! ## Claim theorems: adaptive detector input handling and denominator -/

/-- C2 (counterexample): on a perfectly constant zero sensor series of length
equal to the window (5 readings, window 5), the rolling std at the last
position is zero and the substituted floor `0.01 * mean` is also zero, so the
z-score denominator is exactly zero — the code has no fixed-constant fallback
for a zero overall mean. -/
theorem c2_counterexample : effectiveStdSq (List.replicate 5 (0 : ℚ)) 5 4 = 0 := by
  norm_num [effectiveStdSq, stdDefined, windowCount, minPeriods, windowSlice, sampleVar,
    listMean, minStd, List.replicate]

/-- C2 (amended): a zero (or undefined) rolling std is replaced by 1% of the
sensor's overall mean and by nothing further; consequently the z-score
denominator is nonzero at every position whenever the sensor's overall mean
is nonzero (in particular for every constant series of nonzero value), while
a zero overall mean leaves the denominator zero (`c2_counterexample`). -/
theorem c2_denominator_nonzero (vs : List ℚ) (w i : ℕ) (h : listMean vs ≠ 0) :
    effectiveStdSq vs w i ≠ 0 := by
  unfold effectiveStdSq
  split
  · next hc => exact hc.2
  · next hc =>
    have hm : minStd vs ≠ 0 := by
      unfold minStd
      exact div_ne_zero h (by norm_num)
    exact pow_ne_zero 2 hm

/-- C2 (witness for `c2_denominator_nonzero`): a constant series of ones. -/
theorem c2_witness :
    listMean [(1 : ℚ), 1, 1, 1, 1] ≠ 0 ∧ effectiveStdSq [(1 : ℚ), 1, 1, 1, 1] 5 4 ≠ 0 := by
  have h : listMean [(1 : ℚ), 1, 1, 1, 1] ≠ 0 := by norm_num [listMean]
  exact ⟨h, c2_denominator_nonzero [(1 : ℚ), 1, 1, 1, 1] 5 4 h⟩

/-- C4 (counterexample): the adaptive endpoint's window parameter rejects
`window = 1` (its FastAPI validation is `ge=5`) and its default is 20, not
60. -/
theorem c4_counterexample :
    adaptiveWindowAccepted 1 = false ∧ adaptiveWindowDefault ≠ 60 := by
  decide

/-- C4 (amended): the adaptive detector endpoint accepts every window size
`W ≥ 5` and uses 20 as the default window when none is supplied; windows
below 5 are rejected by the parameter validation before computation. -/
theorem c4_window_validation :
    (∀ w : ℤ, 5 ≤ w → adaptiveWindowAccepted w = true) ∧ adaptiveWindowDefault = 20 := by
  constructor
  · intro w hw
    simpa [adaptiveWindowAccepted] using hw
  · rfl

/-- C4 (witness for `c4_window_validation`): the boundary window 5 passes. -/
theorem c4_witness : (5 : ℤ) ≤ 5 ∧ adaptiveWindowAccepted 5 = true :=
  ⟨le_refl 5, c4_window_validation.1 5 (le_refl 5)⟩

/-- C5 (counterexample): invoked with zero readings the adaptive detector
raises `HTTPException(404, "No readings available")` (modelled as an error
result), not an empty result with a zero sample count. -/
theorem c5_counterexample :
    adaptiveAnomalies [] none 20 = Except.error "No readings available" := rfl

/-- C5 (amended): with zero readings the adaptive detector raises a 404
"No readings available" error rather than returning an empty result; when
readings exist the detector does not error — for example a sensor filter
that matches no reading yields an empty anomaly list — so "no data" is
signalled by the 404 error, not by an empty result. -/
theorem c5_no_data_error (sf : Option String) (w : ℕ) (rs : List Reading) (s : String)
    (hne : rs ≠ []) (hmiss : ∀ r ∈ rs, r.sensor ≠ s) :
    adaptiveAnomalies [] sf w = Except.error "No readings available"
    ∧ adaptiveAnomalies rs (some s) w = Except.ok [] := by
  constructor
  · rfl
  · have h1 : rs.isEmpty = false := by
      cases rs with
      | nil => exact absurd rfl hne
      | cons a l => rfl
    have h2 : List.filter (fun r => r.sensor == s) (sortByTimestamp rs) = [] := by
      rw [List.filter_eq_nil_iff]
      intro r hr
      have hmem : r ∈ rs := by
        have hperm := List.perm_insertionSort
          (fun a b : Reading => a.timestamp ≤ b.timestamp) rs
        exact hperm.mem_iff.mp hr
      simp [hmiss r hmem]
    simp [adaptiveAnomalies, h1, h2]

/-- C5 (witness for `c5_no_data_error`): one temperature reading with a flow
filter. -/
theorem c5_witness :
    adaptiveAnomalies [] none 20 = Except.error "No readings available"
    ∧ adaptiveAnomalies [⟨"temperature", 0, 25⟩] (some "flow") 20 = Except.ok [] := by
  refine c5_no_data_error none 20 [⟨"temperature", 0, 25⟩] "flow" (by simp) ?_
  intro r hr
  have : r = ⟨"temperature", 0, 25⟩ := by simpa using hr
  rw [this]
  decide

/-! ## Claim theorems: classifier -/

/-- C6: the classifier assigns `leakage` to a flow anomaly with
`value > mean`, `sensor_error` to a temperature anomaly with
`|value − mean| > 5`, `overuse` to a power anomaly with `value > mean`, and
`other` otherwise; as a pure per-record function it is order independent
(classification distributes over list concatenation) and classifying the
same event twice yields the same label. -/
theorem c6_classifier_rules (a : AdAnomaly) (l₁ l₂ : List AdAnomaly) :
    (a.sensor = "flow" → classifyType a = if a.mean < a.value then "leakage" else "other")
    ∧ (a.sensor = "temperature" →
        classifyType a = if 5 < |a.value - a.mean| then "sensor_error" else "other")
    ∧ (a.sensor = "power" → classifyType a = if a.mean < a.value then "overuse" else "other")
    ∧ (a.sensor ≠ "flow" → a.sensor ≠ "temperature" → a.sensor ≠ "power" →
        classifyType a = "other")
    ∧ classifyAnomalies (l₁ ++ l₂) = classifyAnomalies l₁ ++ classifyAnomalies l₂
    ∧ (classifyAnomalies [a, a]).map (fun c => c.type) = [classifyType a, classifyType a] := by
  refine ⟨?_, ?_, ?_, ?_, ?_, ?_⟩
  · intro h
    by_cases hv : a.mean < a.value <;> simp [classifyType, h, hv]
  · intro h
    by_cases hv : (5 : ℚ) < |a.value - a.mean| <;> simp [classifyType, h, hv]
  · intro h
    by_cases hv : a.mean < a.value <;> simp [classifyType, h, hv]
  · intro h1 h2 h3
    simp [classifyType, h1, h2, h3]
  · simp [classifyAnomalies]
  · simp [classifyAnomalies]

/-- C6 (witness for `c6_classifier_rules`): a flow anomaly above its rolling
mean is labelled `leakage`. -/
theorem c6_witness : classifyType ⟨"flow", 0, 2, 1, 1, 1⟩ = "leakage" := by
  have h := (c6_classifier_rules ⟨"flow", 0, 2, 1, 1, 1⟩ [] []).1 rfl
  rw [h]
  norm_num

/-- C10: classification returns exactly one record per input anomaly in the
same order; stripping the added `type` field recovers the input list exactly
(every field of `{sensor, timestamp, value, mean, std, z}` is preserved), and
the added `type` is the classification of that record. -/
theorem c10_classify_frame (l : List AdAnomaly) :
    (classifyAnomalies l).map (fun c => c.toAdAnomaly) = l
    ∧ (classifyAnomalies l).map (fun c => c.type) = l.map classifyType
    ∧ (classifyAnomalies l).length = l.length := by
  refine ⟨?_, ?_, ?_⟩
  · have : ((fun c : ClassifiedAnomaly => c.toAdAnomaly)
        ∘ fun a : AdAnomaly => ClassifiedAnomaly.mk a (classifyType a)) = id := by
      funext a
      rfl
    simp [classifyAnomalies, this]
  · simp [classifyAnomalies]
  · simp [classifyAnomalies]

/-! ## List minimum/maximum and telescoping-gap lemmas -/

theorem foldl_min_le_init (xs : List ℚ) : ∀ x : ℚ, xs.foldl min x ≤ x := by
  induction xs with
  | nil => intro x; exact le_refl x
  | cons y t ih =>
    intro x
    simp only [List.foldl_cons]
    exact le_trans (ih (min x y)) (min_le_left x y)

theorem foldl_min_le_mem (xs : List ℚ) : ∀ x y : ℚ, y ∈ xs → xs.foldl min x ≤ y := by
  induction xs with
  | nil => intro x y hy; cases hy
  | cons z t ih =>
    intro x y hy
    simp only [List.foldl_cons]
    rcases List.mem_cons.mp hy with h | h
    · subst h
      exact le_trans (foldl_min_le_init t (min x y)) (min_le_right x y)
    · exact ih (min x z) y h

theorem foldl_min_mem (xs : List ℚ) : ∀ x : ℚ, xs.foldl min x = x ∨ xs.foldl min x ∈ xs := by
  induction xs with
  | nil => intro x; exact Or.inl rfl
  | cons z t ih =>
    intro x
    simp only [List.foldl_cons]
    rcases ih (min x z) with h | h
    · rcases le_total x z with hxz | hzx
      · exact Or.inl (by rw [h, min_eq_left hxz])
      · refine Or.inr ?_
        rw [h, min_eq_right hzx]
        exact List.mem_cons_self z t
    · exact Or.inr (List.mem_cons_of_mem z h)

theorem init_le_foldl_max (xs : List ℚ) : ∀ x : ℚ, x ≤ xs.foldl max x := by
  induction xs with
  | nil => intro x; exact le_refl x
  | cons y t ih =>
    intro x
    simp only [List.foldl_cons]
    exact le_trans (le_max_left x y) (ih (max x y))

theorem mem_le_foldl_max (xs : List ℚ) : ∀ x y : ℚ, y ∈ xs → y ≤ xs.foldl max x := by
  induction xs with
  | nil => intro x y hy; cases hy
  | cons z t ih =>
    intro x y hy
    simp only [List.foldl_cons]
    rcases List.mem_cons.mp hy with h | h
    · subst h
      exact le_trans (le_max_right x y) (init_le_foldl_max t (max x y))
    · exact ih (max x z) y h

theorem foldl_max_mem (xs : List ℚ) : ∀ x : ℚ, xs.foldl max x = x ∨ xs.foldl max x ∈ xs := by
  induction xs with
  | nil => intro x; exact Or.inl rfl
  | cons z t ih =>
    intro x
    simp only [List.foldl_cons]
    rcases ih (max x z) with h | h
    · rcases le_total x z with hxz | hzx
      · refine Or.inr ?_
        rw [h, max_eq_right hxz]
        exact List.mem_cons_self z t
      · exact Or.inl (by rw [h, max_eq_left hzx])
    · exact Or.inr (List.mem_cons_of_mem z h)

theorem qlistMin_le (l : List ℚ) (y : ℚ) (hy : y ∈ l) : qlistMin l ≤ y := by
  cases l with
  | nil => cases hy
  | cons x t =>
    rcases List.mem_cons.mp hy with h | h
    · subst h
      exact foldl_min_le_init t y
    · exact foldl_min_le_mem t x y h

theorem qlistMin_mem (l : List ℚ) (h : l ≠ []) : qlistMin l ∈ l := by
  cases l with
  | nil => exact absurd rfl h
  | cons x t =>
    have he : qlistMin (x :: t) = t.foldl min x := rfl
    rcases foldl_min_mem t x with h1 | h1
    · rw [he, h1]
      exact List.mem_cons_self x t
    · rw [he]
      exact List.mem_cons_of_mem x h1

theorem le_qlistMax (l : List ℚ) (y : ℚ) (hy : y ∈ l) : y ≤ qlistMax l := by
  cases l with
  | nil => cases hy
  | cons x t =>
    rcases List.mem_cons.mp hy with h | h
    · subst h
      exact init_le_foldl_max t y
    · exact mem_le_foldl_max t x y h

theorem qlistMax_mem (l : List ℚ) (h : l ≠ []) : qlistMax l ∈ l := by
  cases l with
  | nil => exact absurd rfl h
  | cons x t =>
    have he : qlistMax (x :: t) = t.foldl max x := rfl
    rcases foldl_max_mem t x with h1 | h1
    · rw [he, h1]
      exact List.mem_cons_self x t
    · rw [he]
      exact List.mem_cons_of_mem x h1

theorem qlistMin_congr (l₁ l₂ : List ℚ) (h₁ : l₁ ≠ []) (h₂ : l₂ ≠ [])
    (hm : ∀ x : ℚ, x ∈ l₁ ↔ x ∈ l₂) : qlistMin l₁ = qlistMin l₂ :=
  le_antisymm (qlistMin_le l₁ _ ((hm _).mpr (qlistMin_mem l₂ h₂)))
    (qlistMin_le l₂ _ ((hm _).mp (qlistMin_mem l₁ h₁)))

theorem qlistMax_congr (l₁ l₂ : List ℚ) (h₁ : l₁ ≠ []) (h₂ : l₂ ≠ [])
    (hm : ∀ x : ℚ, x ∈ l₁ ↔ x ∈ l₂) : qlistMax l₁ = qlistMax l₂ :=
  le_antisymm (le_qlistMax l₂ _ ((hm _).mp (qlistMax_mem l₁ h₁)))
    (le_qlistMax l₁ _ ((hm _).mpr (qlistMax_mem l₂ h₂)))

theorem sorted_headD_le (u : List ℚ) (hs : u.Sorted (· ≤ ·)) :
    ∀ x ∈ u, u.headD 0 ≤ x := by
  cases u with
  | nil => intro x hx; cases hx
  | cons a t =>
    intro x hx
    rw [List.headD_cons]
    rcases List.mem_cons.mp hx with h | h
    · exact le_of_eq h.symm
    · exact List.rel_of_sorted_cons hs x h

theorem sorted_le_getLastD (u : List ℚ) (hs : u.Sorted (· ≤ ·)) :
    ∀ x ∈ u, x ≤ u.getLastD 0 := by
  induction u with
  | nil => intro x hx; cases hx
  | cons a t ih =>
    intro x hx
    cases t with
    | nil =>
      have hxa : x = a := by simpa using hx
      simp [hxa]
    | cons b tt =>
      have hlast : (a :: b :: tt).getLastD 0 = (b :: tt).getLastD 0 := by
        simp [List.getLastD_cons]
      rw [hlast]
      rcases List.mem_cons.mp hx with h | h
      · have hab : a ≤ b := List.rel_of_sorted_cons hs b (List.mem_cons_self b tt)
        have hb := ih hs.of_cons b (List.mem_cons_self b tt)
        exact h ▸ le_trans hab hb
      · exact ih hs.of_cons x h

theorem headD_mem (u : List ℚ) (h : u ≠ []) : u.headD 0 ∈ u := by
  cases u with
  | nil => exact absurd rfl h
  | cons a t =>
    rw [List.headD_cons]
    exact List.mem_cons_self a t

theorem getLastD_mem (u : List ℚ) : ∀ d : ℚ, u ≠ [] → u.getLastD d ∈ u := by
  induction u with
  | nil => intro d h; exact absurd rfl h
  | cons a t ih =>
    intro d h
    cases t with
    | nil => simp
    | cons b tt =>
      rw [List.getLastD_cons]
      exact List.mem_cons_of_mem a (ih a (by simp))

theorem insertionSort_ne_nil (l : List ℚ) (h : l ≠ []) :
    List.insertionSort (· ≤ ·) l ≠ [] := by
  intro he
  have hperm := List.perm_insertionSort (· ≤ ·) l
  rw [he] at hperm
  exact h hperm.symm.eq_nil

theorem insertionSort_headD_min (l : List ℚ) (h : l ≠ []) :
    (List.insertionSort (· ≤ ·) l).headD 0 = qlistMin l := by
  have hperm := List.perm_insertionSort (· ≤ ·) l
  have hne := insertionSort_ne_nil l h
  have hs := List.sorted_insertionSort (· ≤ ·) l
  exact le_antisymm
    (sorted_headD_le _ hs _ (hperm.mem_iff.mpr (qlistMin_mem l h)))
    (qlistMin_le l _ (hperm.mem_iff.mp (headD_mem _ hne)))

theorem insertionSort_getLastD_max (l : List ℚ) (h : l ≠ []) :
    (List.insertionSort (· ≤ ·) l).getLastD 0 = qlistMax l := by
  have hperm := List.perm_insertionSort (· ≤ ·) l
  have hne := insertionSort_ne_nil l h
  have hs := List.sorted_insertionSort (· ≤ ·) l
  exact le_antisymm
    (le_qlistMax l _ (hperm.mem_iff.mp (getLastD_mem _ 0 hne)))
    (sorted_le_getLastD _ hs _ (hperm.mem_iff.mpr (qlistMax_mem l h)))

theorem consecDiffs_length (l : List ℚ) : (consecDiffs l).length = l.length - 1 := by
  induction l with
  | nil => rfl
  | cons a t ih =>
    cases t with
    | nil => rfl
    | cons b tt =>
      simp only [consecDiffs, List.length_cons]
      rw [ih]
      simp

theorem consecDiffs_sum (l : List ℚ) :
    ∀ a : ℚ, (consecDiffs (a :: l)).sum = l.getLastD a - a := by
  induction l with
  | nil =>
    intro a
    simp [consecDiffs]
  | cons b t ih =>
    intro a
    simp only [consecDiffs, List.sum_cons, List.getLastD_cons]
    rw [ih b]
    ring

theorem sum_map_div (l : List ℚ) (c : ℚ) : (l.map (fun d => d / c)).sum = l.sum / c := by
  induction l with
  | nil => simp
  | cons a t ih =>
    simp only [List.map_cons, List.sum_cons, ih]
    rw [add_div]

theorem meanQ_consecDiffs_sorted (l : List ℚ) (h2 : 2 ≤ l.length) :
    meanQ (consecDiffs (List.insertionSort (· ≤ ·) l))
      = (qlistMax l - qlistMin l) / ((l.length : ℚ) - 1) := by
  have hne : l ≠ [] := by
    intro he
    rw [he] at h2
    exact absurd h2 (by norm_num)
  have hlen : (List.insertionSort (· ≤ ·) l).length = l.length :=
    (List.perm_insertionSort (· ≤ ·) l).length_eq
  obtain ⟨a, t, hu⟩ : ∃ a t, List.insertionSort (· ≤ ·) l = a :: t := by
    cases hcase : List.insertionSort (· ≤ ·) l with
    | nil => exact absurd hcase (insertionSort_ne_nil l hne)
    | cons a t => exact ⟨a, t, rfl⟩
  have hsum : (consecDiffs (List.insertionSort (· ≤ ·) l)).sum
      = qlistMax l - qlistMin l := by
    rw [hu, consecDiffs_sum t a]
    have hA : (List.insertionSort (· ≤ ·) l).getLastD 0 = t.getLastD a := by
      rw [hu, List.getLastD_cons]
    have hB : (List.insertionSort (· ≤ ·) l).headD 0 = a := by
      rw [hu, List.headD_cons]
    rw [← hA, ← hB, insertionSort_getLastD_max l hne, insertionSort_headD_min l hne]
  have hlen2 : ((consecDiffs (List.insertionSort (· ≤ ·) l)).length : ℚ)
      = (l.length : ℚ) - 1 := by
    rw [consecDiffs_length, hlen]
    have h1 : 1 ≤ l.length := le_trans (by norm_num) h2
    push_cast [Nat.cast_sub h1]
    ring
  unfold meanQ
  rw [hsum, hlen2]

/-! ## Claim theorems: metrics -/

/-- C7: the MTBA value is the mean gap in minutes between the distinct
timestamps of the adaptive anomalies (rounded to two decimals as the code
does): anomalies from several sensors sharing one timestamp collapse to a
single interval endpoint, so for `d ≥ 2` distinct timestamps the value is
`(max − min)/(d − 1)` minutes over the timestamp multiset, and with fewer
than 2 distinct timestamps it is 0; the sample count is the raw anomaly
count. -/
theorem c7_mtba_distinct_timestamps (anoms : List AdAnomaly) :
    (getMtba anoms).value = mtbaSpecValue anoms
    ∧ (getMtba anoms).samples = anoms.length := by
  by_cases he : anoms.isEmpty = true
  · have hnil : anoms = [] := List.isEmpty_iff.mp he
    subst hnil
    constructor <;> rfl
  · have hts : (anoms.map fun a => a.timestamp).length = anoms.length := List.length_map _ _
    by_cases hlen : anoms.length < 2
    · have hd2 : ((anoms.map fun a => a.timestamp).dedup).length < 2 := by
        have hsub := (List.dedup_sublist (anoms.map fun a => a.timestamp)).length_le
        omega
      constructor
      · simp [getMtba, mtbaSpecValue, he, hlen, hd2]
      · simp [getMtba, he, hlen]
    · have hlen2 : ((uniqueSorted (anoms.map fun a => a.timestamp)).length)
          = ((anoms.map fun a => a.timestamp).dedup).length :=
        (List.perm_insertionSort (· ≤ ·) _).length_eq
      by_cases hu : (uniqueSorted (anoms.map fun a => a.timestamp)).length < 2
      · have hd2 : ((anoms.map fun a => a.timestamp).dedup).length < 2 := by omega
        constructor
        · simp [getMtba, mtbaSpecValue, he, hlen, hu, hd2]
        · simp [getMtba, he, hlen, hu]
      · have hd2 : ¬ ((anoms.map fun a => a.timestamp).dedup).length < 2 := by omega
        have hdge : 2 ≤ ((anoms.map fun a => a.timestamp).dedup).length := not_lt.mp hd2
        have hdne : (anoms.map fun a => a.timestamp).dedup ≠ [] := by
          intro hcontr
          rw [hcontr] at hdge
          exact absurd hdge (by norm_num)
        have htne : (anoms.map fun a => a.timestamp) ≠ [] :=
          fun hcontr => hdne (by rw [hcontr]; rfl)
        have hmean := meanQ_consecDiffs_sorted (anoms.map fun a => a.timestamp).dedup hdge
        have hminc : qlistMin ((anoms.map fun a => a.timestamp).dedup)
            = qlistMin (anoms.map fun a => a.timestamp) :=
          qlistMin_congr _ _ hdne htne (fun x => List.mem_dedup)
        have hmaxc : qlistMax ((anoms.map fun a => a.timestamp).dedup)
            = qlistMax (anoms.map fun a => a.timestamp) :=
          qlistMax_congr _ _ hdne htne (fun x => List.mem_dedup)
        constructor
        · simp only [getMtba, mtbaSpecValue]
          rw [if_neg he, if_neg hlen]
          rw [if_neg hu, if_neg hd2]
          rw [show (uniqueSorted (anoms.map fun a => a.timestamp))
              = List.insertionSort (· ≤ ·) ((anoms.map fun a => a.timestamp).dedup)
              from rfl]
          rw [hmean, hminc, hmaxc]
        · simp [getMtba, he, hlen, hu]

/-- C8: the MTBF value is the mean gap in hours between consecutive
static-anomaly timestamps taken in sorted order — equivalently
`(max − min)/60/(n − 1)` over the `n ≥ 2` failure timestamps, rounded to two
decimals — and 0 when fewer than 2 static anomalies exist; in particular two
temperature failures 150 minutes apart (10:00 and 12:30) give exactly 2.5
hours. -/
theorem c8_mtbf_mean_gap :
    (∀ (rs : List Reading) (s e : Option ℚ),
      (getMtbf rs s e).value = mtbfSpecValue rs s e
      ∧ (getMtbf rs s e).samples = (failTimestamps rs s e).length)
    ∧ getMtbf [⟨"temperature", 600, 40⟩, ⟨"temperature", 750, 40⟩] none none
      = ⟨5/2, 2⟩ := by
  constructor
  · intro rs s e
    by_cases hlen : (failTimestamps rs s e).length < 2
    · constructor
      · simp [getMtbf, mtbfSpecValue, hlen]
      · simp [getMtbf, hlen]
    · have h2 : 2 ≤ (failTimestamps rs s e).length := not_lt.mp hlen
      have hmean := meanQ_consecDiffs_sorted (failTimestamps rs s e) h2
      have hdm : meanQ ((consecDiffs (List.insertionSort (· ≤ ·)
            (failTimestamps rs s e))).map (fun d => d / 60))
          = meanQ (consecDiffs (List.insertionSort (· ≤ ·) (failTimestamps rs s e))) / 60 := by
        unfold meanQ
        rw [sum_map_div, List.length_map, div_div, mul_comm, ← div_div]
      constructor
      · simp only [getMtbf, mtbfSpecValue]
        rw [if_neg hlen, if_neg hlen]
        rw [hdm, hmean, div_div,
          mul_comm (((failTimestamps rs s e).length : ℚ) - 1) 60, ← div_div]
      · simp [getMtbf, hlen]
  · norm_num [getMtbf, failTimestamps, isStaticFailure, inRange, consecDiffs, meanQ,
      pyRound2, roundHalfEven, List.insertionSort, List.orderedInsert]

/-- C9 (counterexample): a request with `start > end` to the availability
metric is not rejected — the endpoint filters with the contradictory bounds,
is left with zero samples, and returns the metric value 0 with
`samples = 0`. -/
theorem c9_counterexample :
    getAvailability [⟨"flow", 5, 1⟩] (some 10) (some 0) = ⟨0, 0⟩ := by
  norm_num [getAvailability, List.filter]

/-- C9 (amended): of the windowed metrics, quality rejects `start > end`
with a 400 configuration error (and only after its empty-data early return),
while availability and thermal variation do not reject it: they filter with
the contradictory bounds and return a zero-sample metric value. -/
theorem c9_start_end_behavior (rs : List Reading) (s e : ℚ) (hlt : e < s) :
    getAvailability rs (some s) (some e) = ⟨0, 0⟩
    ∧ getThermalVariation rs (some s) (some e) = ⟨0, 0⟩
    ∧ ((rs.filter fun (r : Reading) => r.sensor == "temperature") ≠ [] →
        getQuality rs (some s) (some e) = Except.error "start must be <= end") := by
  refine ⟨?_, ?_, ?_⟩
  · have hnil : List.filter
        (fun (a : Reading) => decide (a.timestamp ≤ e)
          && (decide (s ≤ a.timestamp) && a.sensor == "flow")) rs = [] := by
      rw [List.filter_eq_nil_iff]
      intro r hr
      simp only [Bool.and_eq_true, decide_eq_true_eq, not_and]
      intro h1 h2
      linarith
    simp [getAvailability, hnil]
  · have hnil : List.filter
        (fun (a : Reading) => decide (a.timestamp ≤ e)
          && (decide (s ≤ a.timestamp) && a.sensor == "temperature")) rs = [] := by
      rw [List.filter_eq_nil_iff]
      intro r hr
      simp only [Bool.and_eq_true, decide_eq_true_eq, not_and]
      intro h1 h2
      linarith
    simp [getThermalVariation, hnil]
  · intro hq
    have hie : (List.filter (fun (r : Reading) => r.sensor == "temperature") rs).isEmpty
        = false := by
      rw [Bool.eq_false_iff]
      intro hcontr
      exact hq (List.isEmpty_iff.mp hcontr)
    simp [getQuality, hie, hlt]

/-- C9 (witness for `c9_start_end_behavior`): one flow and one temperature
reading, bounds `start = 10 > end = 0`. -/
theorem c9_witness :
    getAvailability [⟨"flow", 5, 1⟩, ⟨"temperature", 5, 60⟩] (some 10) (some 0) = ⟨0, 0⟩
    ∧ getThermalVariation [⟨"flow", 5, 1⟩, ⟨"temperature", 5, 60⟩] (some 10) (some 0) = ⟨0, 0⟩
    ∧ getQuality [⟨"flow", 5, 1⟩, ⟨"temperature", 5, 60⟩] (some 10) (some 0)
      = Except.error "start must be <= end" := by
  have h := c9_start_end_behavior [⟨"flow", 5, 1⟩, ⟨"temperature", 5, 60⟩] 10 0 (by norm_num)
  exact ⟨h.1, h.2.1, h.2.2 (by simp)⟩

end DigitalTwin
